import Mathlib

/-! # Snake game: the game-state core of `src/Windows/main.cpp`

A shallow embedding of the members of `class Game` that decide the game logic
(`ProcessInput`, `HandleMenuInput`, `Update`, `GenerateFood`, `CheckCollision`,
`GameOver`, `Reset`, `Initialize`, the parsing half of `ShowScores`), followed by
theorems about them.

Conventions of the embedding.

* A C++ `int` is a Lean `Int` holding a 32-bit value.  The one sum that can leave the
  32-bit range on a session the program runs, `score += 10`, wraps around as the
  compiled code does (`wrapInt`).  `/` and `%` on `int` truncate toward zero: `Int.tdiv`
  and `Int.tmod`.
* `std::vector<Point>` is `List Point`, the head of the snake first.
* The globals `GRID_WIDTH` and `GRID_HEIGHT` are fixed before the `Game` object exists;
  they are carried in a `Grid` value.
* `std::rand()` is a list `rand : List Nat` of the values the calls return, in call order;
  every function that draws returns the values it has not used.
* `scores.txt` is the list of its lines, each line a list of characters.
* What a member function cannot return normally is a `Fault`.
* Rendering, the delay, and the display loop of `ShowScores` (which waits for Escape and
  writes no member of `Game`) are left out.
-/

/-- The struct `Point`. -/
structure Point where
  x : Int
  y : Int
deriving DecidableEq

/-- The enum class `Move`. -/
inductive Move where
  | none
  | up
  | down
  | left
  | right
deriving DecidableEq

/-- The enum class `MenuOption`. -/
inductive MenuOption where
  | start
  | scores
  | exit
deriving DecidableEq

/-- The key symbols `ProcessInput` distinguishes; `other` is any other key. -/
inductive Key where
  | k1
  | k2
  | k3
  | up
  | down
  | left
  | right
  | escape
  | other
deriving DecidableEq

/-- What `SDL_PollEvent` hands to `ProcessInput`: `SDL_QUIT`, `SDL_KEYDOWN` with its key
symbol, or an event of another type. -/
inductive Event where
  | quit
  | keydown (sym : Key)
  | other
deriving DecidableEq

/-- The globals `GRID_WIDTH` and `GRID_HEIGHT`. -/
structure Grid where
  GRID_WIDTH : Int
  GRID_HEIGHT : Int
deriving DecidableEq

/-- Ways in which a member function does not return normally. -/
inductive Fault where
  /-- `snake[0]` is read on an empty vector (undefined behaviour). -/
  | emptySnake
  /-- The do-while loop of `GenerateFood` has not stopped on the values drawn. -/
  | foodLoop
  /-- The call `exit(1)` of the menu option `exit`. -/
  | processExit
  /-- The function `std::stoi` throws on a line of `scores.txt`; nothing catches it. -/
  | badScoreLine
deriving DecidableEq

/-- The result of a member function: a fault, or the value it returns. -/
inductive Res (α : Type) where
  | fault (f : Fault)
  | ok (a : α)
deriving DecidableEq

/-- The data members of `class Game` that the game logic reads or writes, and with them
the contents of the file `scores.txt`. -/
structure Game where
  isRunning : Bool
  inMenu : Bool
  snake : List Point
  food : Point
  direction : Move
  score : Int
  scoresTxt : List (List Char)
deriving DecidableEq

/-- Least value of a 32-bit `int`. -/
def INT_MIN : Int := -2147483648

/-- Greatest value of a 32-bit `int`. -/
def INT_MAX : Int := 2147483647

/-- The 32-bit two's complement value of a sum of `int`s: what the compiled `+=` leaves
in an `int` variable. -/
def wrapInt (z : Int) : Int :=
  (z + 2147483648) % 4294967296 - 2147483648

/-- The characters `operator<<` writes for an `int`: decimal digits, a minus sign first
for a negative value. -/
def writeInt (z : Int) : List Char :=
  match z with
  | Int.ofNat n => Nat.toDigits 10 n
  | Int.negSucc n => '-' :: Nat.toDigits 10 (n + 1)

/-- The C function `isspace` in the default locale. -/
def isspace (c : Char) : Bool :=
  c.toNat = 32 || (9 ≤ c.toNat && c.toNat ≤ 13)

/-- Value of a run of decimal digits, most significant first. -/
def digitsValue (ds : List Char) : Nat :=
  ds.foldl (fun acc c => acc * 10 + (c.toNat - 48)) 0

/-- The optional sign `std::stoi` reads before the digits: whether it is a minus sign,
and what follows it. -/
def stoiSign (s : List Char) : Bool × List Char :=
  match s with
  | '-' :: t => (true, t)
  | '+' :: t => (false, t)
  | t => (false, t)

/-- The function `std::stoi` on a line: leading white space is skipped, an optional sign
is read, then the longest run of decimal digits; what follows is ignored.  `none` stands
for the exception thrown when there is no digit or the value does not fit an `int`. -/
def stoi (line : List Char) : Option Int :=
  let signed := stoiSign (line.dropWhile isspace)
  let ds := signed.2.takeWhile Char.isDigit
  if ds = [] then Option.none
  else
    let v : Int := if signed.1 then -(digitsValue ds : Int) else (digitsValue ds : Int)
    if INT_MIN ≤ v ∧ v ≤ INT_MAX then some v else Option.none

/-- The `while (std::getline ...)` loop of `ShowScores`: every line goes through
`std::stoi`. -/
def parseScores : List (List Char) → Option (List Int)
  | [] => some []
  | line :: rest =>
    match stoi line with
    | Option.none => Option.none
    | some score =>
      match parseScores rest with
      | Option.none => Option.none
      | some scores => some (score :: scores)

/-- Which of the acquisitions of `Game::Initialize` succeed: `SDL_Init`,
`SDL_CreateWindow`, `SDL_CreateRenderer`, `TTF_Init`, `TTF_OpenFont`. -/
structure Platform where
  sdlInit : Bool
  createWindow : Bool
  createRenderer : Bool
  ttfInit : Bool
  openFont : Bool
deriving DecidableEq

namespace Game

/-- The constructor `Game::Game`.  It gives `food` and `direction` no value; what they
hold is passed in. -/
def ctor (food : Point) (direction : Move) (scoresTxt : List (List Char)) : Game :=
  { isRunning := false, inMenu := true, snake := [], food := food,
    direction := direction, score := 0, scoresTxt := scoresTxt }

/-- The member `Game::CheckCollision`. -/
def CheckCollision (g : Game) (x y : Int) : Bool :=
  g.snake.any (fun segment => decide (segment.x = x ∧ segment.y = y))

/-- The member `Game::GenerateFood`: two draws per turn of the do-while loop.  (With a
grid size of 0 the C++ `%` is undefined; the statements below take sizes of at least
1.) -/
def GenerateFood (grid : Grid) (g : Game) : List Nat → Res (Game × List Nat)
  | rx :: ry :: rest =>
    let x := Int.tmod (rx : Int) grid.GRID_WIDTH
    let y := Int.tmod (ry : Int) grid.GRID_HEIGHT
    if g.CheckCollision x y then GenerateFood grid g rest
    else Res.ok ({ g with food := { x := x, y := y } }, rest)
  | _ => Res.fault Fault.foodLoop

/-- The member `Game::Reset`. -/
def Reset (grid : Grid) (g : Game) (rand : List Nat) : Res (Game × List Nat) :=
  let g1 := { g with snake := [{ x := Int.tdiv grid.GRID_WIDTH 2,
                                 y := Int.tdiv grid.GRID_HEIGHT 2 }] }
  let g2 := { g1 with direction := Move.none }
  let g3 := { g2 with score := 0 }
  match GenerateFood grid g3 rand with
  | Res.fault f => Res.fault f
  | Res.ok (g4, rest) => Res.ok ({ g4 with inMenu := true }, rest)

/-- The member `Game::GameOver`; `appendOk` tells whether `scores.txt` opens for
appending. -/
def GameOver (grid : Grid) (appendOk : Bool) (g : Game) (rand : List Nat) :
    Res (Game × List Nat) :=
  let g1 := if appendOk then { g with scoresTxt := g.scoresTxt ++ [writeInt g.score] } else g
  Reset grid g1 rand

/-- The switch on `direction` in `Game::Update`: the moved copy of the head, `none` for
the case `Move::none`, which returns. -/
def movedHead (head : Point) : Move → Option Point
  | Move.up => some { head with y := head.y - 1 }
  | Move.down => some { head with y := head.y + 1 }
  | Move.left => some { head with x := head.x - 1 }
  | Move.right => some { head with x := head.x + 1 }
  | Move.none => Option.none

/-- The first if-else of `Game::Update` after the switch: on the food cell the score
grows by 10 in 32-bit arithmetic and new food is generated, otherwise the tail segment is
removed. -/
def foodCheck (grid : Grid) (g : Game) (head : Point) (rand : List Nat) :
    Res (Game × List Nat) :=
  if head.x = g.food.x ∧ head.y = g.food.y then
    GenerateFood grid { g with score := wrapInt (g.score + 10) } rand
  else
    Res.ok ({ g with snake := g.snake.dropLast }, rand)

/-- The member `Game::Update`. -/
def Update (grid : Grid) (appendOk : Bool) (g : Game) (rand : List Nat) :
    Res (Game × List Nat) :=
  if g.inMenu then Res.ok (g, rand)
  else
    match g.snake with
    | [] => Res.fault Fault.emptySnake
    | snake0 :: _ =>
      match movedHead snake0 g.direction with
      | Option.none => Res.ok (g, rand)
      | some head =>
        match foodCheck grid g head rand with
        | Res.fault f => Res.fault f
        | Res.ok (g1, rand1) =>
          if head.x < 0 ∨ head.x ≥ grid.GRID_WIDTH ∨ head.y < 0 ∨ head.y ≥ grid.GRID_HEIGHT
              ∨ g1.CheckCollision head.x head.y = true then
            GameOver grid appendOk g1 rand1
          else
            Res.ok ({ g1 with snake := head :: g1.snake }, rand1)

/-- The reading half of `Game::ShowScores`: the scores parsed from `scores.txt` and sorted
in descending order, as they are displayed. -/
def ShowScores (g : Game) : Res (List Int) :=
  match parseScores g.scoresTxt with
  | Option.none => Res.fault Fault.badScoreLine
  | some scores => Res.ok (scores.insertionSort (fun a b => b ≤ a))

/-- The member `Game::HandleMenuInput`. -/
def HandleMenuInput (g : Game) (option : MenuOption) : Res Game :=
  match option with
  | MenuOption.start => Res.ok { g with inMenu := false }
  | MenuOption.scores =>
    match g.ShowScores with
    | Res.fault f => Res.fault f
    | Res.ok _ => Res.ok g
  | MenuOption.exit => Res.fault Fault.processExit

/-- The body of the `while (SDL_PollEvent(&event))` loop of `Game::ProcessInput`. -/
def handleEvent (g : Game) (event : Event) : Res Game :=
  match event with
  | Event.quit => Res.ok { g with isRunning := false }
  | Event.keydown sym =>
    if g.inMenu then
      match sym with
      | Key.k1 => g.HandleMenuInput MenuOption.start
      | Key.k2 => g.HandleMenuInput MenuOption.scores
      | Key.k3 => g.HandleMenuInput MenuOption.exit
      | _ => Res.ok g
    else
      match sym with
      | Key.up =>
        Res.ok (if g.direction ≠ Move.down then { g with direction := Move.up } else g)
      | Key.down =>
        Res.ok (if g.direction ≠ Move.up then { g with direction := Move.down } else g)
      | Key.left =>
        Res.ok (if g.direction ≠ Move.right then { g with direction := Move.left } else g)
      | Key.right =>
        Res.ok (if g.direction ≠ Move.left then { g with direction := Move.right } else g)
      | Key.escape => Res.ok { g with inMenu := true }
      | _ => Res.ok g
  | Event.other => Res.ok g

/-- The member `Game::ProcessInput` on the events its polling loop returns, in order. -/
def ProcessInput (g : Game) : List Event → Res Game
  | [] => Res.ok g
  | event :: events =>
    match g.handleEvent event with
    | Res.fault f => Res.fault f
    | Res.ok g1 => ProcessInput g1 events

/-- The member `Game::Initialize`, with its early returns. -/
def Initialize (p : Platform) (grid : Grid) (g : Game) (rand : List Nat) :
    Res (Game × List Nat) :=
  if p.sdlInit = false then Res.ok (g, rand)
  else if p.createWindow = false then Res.ok (g, rand)
  else if p.createRenderer = false then Res.ok (g, rand)
  else
    let g1 := { g with isRunning := true }
    if p.ttfInit = false then Res.ok (g1, rand)
    else if p.openFont = false then Res.ok (g1, rand)
    else
      let centre : Point := { x := Int.tdiv grid.GRID_WIDTH 2,
                              y := Int.tdiv grid.GRID_HEIGHT 2 }
      let g2 := { g1 with snake := g1.snake ++ [centre] }
      let g3 := { g2 with direction := Move.none }
      match GenerateFood grid g3 rand with
      | Res.fault f => Res.fault f
      | Res.ok (g4, rest) => Res.ok ({ g4 with scoresTxt := [] }, rest)

end Game

/-! ## Notions the statements use -/

/-- A cell of the grid: inside `[0, GRID_WIDTH) x [0, GRID_HEIGHT)`. -/
def inGrid (grid : Grid) (p : Point) : Prop :=
  0 ≤ p.x ∧ p.x < grid.GRID_WIDTH ∧ 0 ≤ p.y ∧ p.y < grid.GRID_HEIGHT

instance (grid : Grid) (p : Point) : Decidable (inGrid grid p) := by
  unfold inGrid; infer_instance

/-- The centre cell `(GRID_WIDTH / 2, GRID_HEIGHT / 2)`. -/
def centre (grid : Grid) : Point :=
  { x := Int.tdiv grid.GRID_WIDTH 2, y := Int.tdiv grid.GRID_HEIGHT 2 }

/-- The direction a direction key asks for; `none` for a key that is not a direction
key. -/
def keyMove : Key → Option Move
  | Key.up => some Move.up
  | Key.down => some Move.down
  | Key.left => some Move.left
  | Key.right => some Move.right
  | _ => Option.none

/-- The opposite pairs as the specification names them: up/down and left/right;
`Move.none` has no opposite. -/
def specOpposite : Move → Move → Bool
  | Move.up, Move.down => true
  | Move.down, Move.up => true
  | Move.left, Move.right => true
  | Move.right, Move.left => true
  | _, _ => false

/-- The list `ds` is a decimal numeral of `n`: not empty, digits only, of value `n` when
read after any digits already accumulated. -/
def IsDecimal (ds : List Char) (n : Nat) : Prop :=
  ds ≠ [] ∧ (∀ c ∈ ds, c.isDigit = true) ∧
    ∀ acc : Nat, ds.foldl (fun a c => a * 10 + (c.toNat - 48)) acc = acc * 10 ^ ds.length + n

/-- The snake is well formed on the grid: not empty, no cell twice, every cell in the
grid. -/
def SnakeOk (grid : Grid) (snake : List Point) : Prop :=
  snake ≠ [] ∧ snake.Nodup ∧ ∀ p ∈ snake, inGrid grid p

/-- Every acquisition of `Game::Initialize` succeeds. -/
def allAcquired : Platform :=
  { sdlInit := true, createWindow := true, createRenderer := true, ttfInit := true,
    openFont := true }

/-- The sessions the program can be in: the one `Initialize` builds on the freshly
constructed object when every acquisition succeeds, and what `ProcessInput`,
`HandleMenuInput` and `Update` make of a session already reached, whatever the events,
the menu option, the random values and the state of the score file. -/
inductive Reachable (grid : Grid) : Game → Prop where
  | init (food : Point) (direction : Move) (scoresTxt : List (List Char))
      (rand rest : List Nat) (g : Game) :
      (Game.ctor food direction scoresTxt).Initialize allAcquired grid rand = Res.ok (g, rest) →
      Reachable grid g
  | input (g g1 : Game) (events : List Event) :
      Reachable grid g → g.ProcessInput events = Res.ok g1 → Reachable grid g1
  | menu (g g1 : Game) (option : MenuOption) :
      Reachable grid g → g.HandleMenuInput option = Res.ok g1 → Reachable grid g1
  | tick (g g1 : Game) (appendOk : Bool) (rand rest : List Nat) :
      Reachable grid g → g.Update grid appendOk rand = Res.ok (g1, rest) → Reachable grid g1

/-- The default grid: the 640x480 window at 20 pixels a cell, 32 by 24 cells. -/
def grid32x24 : Grid := { GRID_WIDTH := 32, GRID_HEIGHT := 24 }

/-- A session as `Reset` leaves it on the 32x24 grid, food at `(0, 0)`. -/
def centreGame : Game :=
  { isRunning := true, inMenu := true, snake := [{ x := 16, y := 12 }],
    food := { x := 0, y := 0 }, direction := Move.none, score := 0, scoresTxt := [] }

/-- A playing session whose snake of four cells is coiled in the corner of the grid: the
cell below the head `(0, 0)` is the tail `(0, 1)`. -/
def coiledGame : Game :=
  { isRunning := true, inMenu := false,
    snake := [{ x := 0, y := 0 }, { x := 1, y := 0 }, { x := 1, y := 1 }, { x := 0, y := 1 }],
    food := { x := 9, y := 9 }, direction := Move.down, score := 30, scoresTxt := [] }

/-- A run in progress: two cells, heading right, score 10. -/
def runningGame : Game :=
  { isRunning := true, inMenu := false, snake := [{ x := 3, y := 3 }, { x := 2, y := 3 }],
    food := { x := 9, y := 9 }, direction := Move.right, score := 10, scoresTxt := [] }

/-- A playing session of one cell at `(5, 5)`, heading right, the food on the next cell
`(6, 5)`. -/
def feedingGame : Game :=
  { isRunning := true, inMenu := false, snake := [{ x := 5, y := 5 }],
    food := { x := 6, y := 5 }, direction := Move.right, score := 0, scoresTxt := [] }

/-- A playing session on which `Game::Run` is looping, the score file empty. -/
def session (snake : List Point) (food : Point) (direction : Move) (score : Int) : Game :=
  { isRunning := true, inMenu := false, snake := snake, food := food,
    direction := direction, score := score, scoresTxt := [] }

/-- A playing session of four cells with the food cell under the tail `(19, 12)`, which is
the cell to the left of the head `(20, 12)`; the snake heads left, the score is 30. -/
def foodUnderTailGame : Game :=
  session [{ x := 20, y := 12 }, { x := 20, y := 13 }, { x := 19, y := 13 },
    { x := 19, y := 12 }] { x := 19, y := 12 } Move.left 30

/-- A playing session of three cells in a row, the head `(5, 5)` on the left, heading
left as in its last move. -/
def leftwardGame : Game :=
  { isRunning := true, inMenu := false,
    snake := [{ x := 5, y := 5 }, { x := 6, y := 5 }, { x := 7, y := 5 }],
    food := { x := 9, y := 9 }, direction := Move.left, score := 20, scoresTxt := [] }

/-- A playing session at the left wall, heading left, score 20, one earlier record in the
score file. -/
def wallGame : Game :=
  { isRunning := true, inMenu := false, snake := [{ x := 0, y := 3 }, { x := 1, y := 3 }],
    food := { x := 9, y := 9 }, direction := Move.left, score := 20,
    scoresTxt := [['1', '0']] }

/-- The session `Update` makes of `wallGame` when the two values drawn are 3 and 4: the
score 20 is appended to the file and the session is reset, the food on `(3, 4)`. -/
def wallGameOver : Game :=
  { isRunning := true, inMenu := true, snake := [{ x := 16, y := 12 }],
    food := { x := 3, y := 4 }, direction := Move.none, score := 0,
    scoresTxt := [['1', '0'], ['2', '0']] }

/-- The session `Update` makes of `feedingGame` when the two values drawn are 6 and 5. -/
def fedOnHeadGame : Game :=
  { isRunning := true, inMenu := false, snake := [{ x := 6, y := 5 }, { x := 5, y := 5 }],
    food := { x := 6, y := 5 }, direction := Move.right, score := 10, scoresTxt := [] }

/-- The session `Update` makes of `foodUnderTailGame` when the values drawn are 0, 0, 1
and 1: the record written is 40. -/
def foodUnderTailGameOver : Game :=
  { isRunning := true, inMenu := true, snake := [{ x := 16, y := 12 }],
    food := { x := 1, y := 1 }, direction := Move.none, score := 0,
    scoresTxt := [['4', '0']] }

/-- The session `leftwardGame` after the keys Up and Right polled in one call of
`ProcessInput`. -/
def leftwardGameTurned : Game :=
  { isRunning := true, inMenu := false,
    snake := [{ x := 5, y := 5 }, { x := 6, y := 5 }, { x := 7, y := 5 }],
    food := { x := 9, y := 9 }, direction := Move.right, score := 20, scoresTxt := [] }

/-- The session `Update` makes of `leftwardGameTurned` when the values drawn are 3 and
4. -/
def leftwardGameOver : Game :=
  { isRunning := true, inMenu := true, snake := [{ x := 16, y := 12 }],
    food := { x := 3, y := 4 }, direction := Move.none, score := 0,
    scoresTxt := [['2', '0']] }

/-- The session `Initialize` builds on the 32x24 grid when the values drawn are 3 and
4. -/
def initialGame : Game :=
  { isRunning := true, inMenu := true, snake := [{ x := 16, y := 12 }],
    food := { x := 3, y := 4 }, direction := Move.none, score := 0, scoresTxt := [] }

/-- The session `initialGame` after the keys `1` and Right. -/
def initialGameStarted : Game :=
  { isRunning := true, inMenu := false, snake := [{ x := 16, y := 12 }],
    food := { x := 3, y := 4 }, direction := Move.right, score := 0, scoresTxt := [] }

/-- The session `Update` makes of `initialGameStarted`. -/
def initialGameMoved : Game :=
  { isRunning := true, inMenu := false, snake := [{ x := 17, y := 12 }],
    food := { x := 3, y := 4 }, direction := Move.right, score := 0, scoresTxt := [] }

theorem CheckCollision_iff_mem (g : Game) (x y : Int) :
    g.CheckCollision x y = true ↔ ({ x := x, y := y } : Point) ∈ g.snake := by
  unfold Game.CheckCollision
  rw [List.any_eq_true]
  constructor
  · rintro ⟨segment, hmem, hseg⟩
    have h := of_decide_eq_true hseg
    have heq : segment = ({ x := x, y := y } : Point) := by
      cases segment
      simp only [Point.mk.injEq]
      exact h
    rw [← heq]
    exact hmem
  · intro hmem
    exact ⟨_, hmem, by simp⟩

theorem CheckCollision_point (g : Game) (p : Point) :
    g.CheckCollision p.x p.y = true ↔ p ∈ g.snake :=
  CheckCollision_iff_mem g p.x p.y

/-- What a returning `GenerateFood` has done: only `food` is written, with a pair of
draws reduced modulo the grid size that passes the collision test. -/
theorem GenerateFood_ok (grid : Grid) (g : Game) (rand : List Nat) :
    ∀ (g1 : Game) (rest : List Nat), g.GenerateFood grid rand = Res.ok (g1, rest) →
      ∃ rx ry : Nat,
        g1 = { g with food := { x := Int.tmod (rx : Int) grid.GRID_WIDTH,
                                y := Int.tmod (ry : Int) grid.GRID_HEIGHT } } ∧
        g.CheckCollision (Int.tmod (rx : Int) grid.GRID_WIDTH)
          (Int.tmod (ry : Int) grid.GRID_HEIGHT) = false := by
  induction rand using Game.GenerateFood.induct grid g with
  | case1 rx ry rest x y hcol ih =>
    intro g1 rest1 h
    rw [Game.GenerateFood] at h
    simp only [x, y] at hcol
    simp only [hcol, if_true] at h
    exact ih g1 rest1 h
  | case2 rx ry rest x y hcol =>
    intro g1 rest1 h
    rw [Game.GenerateFood] at h
    simp only [x, y] at hcol
    simp only [hcol] at h
    simp only [Bool.false_eq_true, if_false, Res.ok.injEq, Prod.mk.injEq] at h
    refine ⟨rx, ry, h.1.symm, ?_⟩
    simpa using hcol
  | case3 rand hne =>
    intro g1 rest1 h
    rw [Game.GenerateFood] at h
    · exact absurd h (by simp)
    · exact hne

/-- A pair of draws reduced modulo the sizes of a grid with `GRID_WIDTH ≥ 1` and
`GRID_HEIGHT ≥ 1` is a cell of the grid. -/
theorem drawn_cell_inGrid (grid : Grid) (rx ry : Nat)
    (hW : 1 ≤ grid.GRID_WIDTH) (hH : 1 ≤ grid.GRID_HEIGHT) :
    inGrid grid { x := Int.tmod (rx : Int) grid.GRID_WIDTH,
                  y := Int.tmod (ry : Int) grid.GRID_HEIGHT } :=
  ⟨Int.tmod_nonneg _ (Int.ofNat_nonneg rx), Int.tmod_lt_of_pos _ (by omega),
    Int.tmod_nonneg _ (Int.ofNat_nonneg ry), Int.tmod_lt_of_pos _ (by omega)⟩

/-- A cell that passes the collision test is no cell of the snake. -/
theorem not_mem_of_CheckCollision_false (g : Game) (x y : Int)
    (h : g.CheckCollision x y = false) :
    ∀ segment ∈ g.snake, segment ≠ ({ x := x, y := y } : Point) := by
  intro segment hmem heq
  have hin := (CheckCollision_iff_mem g x y).mpr (heq ▸ hmem)
  rw [h] at hin
  exact absurd hin (by simp)

/-- The loop of `GenerateFood` stops at the first pair of draws that passes the collision
test, whatever number of colliding pairs comes before it. -/
theorem GenerateFood_returns (grid : Grid) (g : Game) (rx ry : Nat) (rest : List Nat)
    (hfree : g.CheckCollision (Int.tmod (rx : Int) grid.GRID_WIDTH)
      (Int.tmod (ry : Int) grid.GRID_HEIGHT) = false) :
    ∀ colliding : List (Nat × Nat),
      (∀ pair ∈ colliding, g.CheckCollision (Int.tmod (pair.1 : Int) grid.GRID_WIDTH)
        (Int.tmod (pair.2 : Int) grid.GRID_HEIGHT) = true) →
      g.GenerateFood grid
          ((colliding.map (fun pair => [pair.1, pair.2])).flatten ++ rx :: ry :: rest) =
        Res.ok ({ g with food := { x := Int.tmod (rx : Int) grid.GRID_WIDTH,
                                   y := Int.tmod (ry : Int) grid.GRID_HEIGHT } }, rest) := by
  intro colliding
  induction colliding with
  | nil =>
    intro _
    simp only [List.map_nil, List.flatten_nil, List.nil_append, Game.GenerateFood, hfree,
      Bool.false_eq_true, if_false]
  | cons pair colliding ih =>
    intro hall
    have hpair := hall pair (List.mem_cons_self pair colliding)
    simp only [List.map_cons, List.flatten_cons, List.cons_append, List.nil_append,
      Game.GenerateFood, hpair, if_true]
    exact ih (fun q hq => hall q (List.mem_cons_of_mem pair hq))

/-- C7.  For a grid with `GRID_WIDTH ≥ 1` and `GRID_HEIGHT ≥ 1`, every snake and every
sequence of values of the random source on which the loop of `GenerateFood` stops, the
food cell it sets lies in `[0, GRID_WIDTH) x [0, GRID_HEIGHT)` and equals no cell of the
snake passed in. -/
theorem GenerateFood_in_grid_off_snake (grid : Grid) (g g1 : Game) (rand rest : List Nat)
    (hW : 1 ≤ grid.GRID_WIDTH) (hH : 1 ≤ grid.GRID_HEIGHT)
    (h : g.GenerateFood grid rand = Res.ok (g1, rest)) :
    inGrid grid g1.food ∧ ∀ segment ∈ g.snake, segment ≠ g1.food := by
  obtain ⟨rx, ry, hg1, hfree⟩ := GenerateFood_ok grid g rand g1 rest h
  subst hg1
  exact ⟨drawn_cell_inGrid grid rx ry hW hH, not_mem_of_CheckCollision_false g _ _ hfree⟩

theorem GenerateFood_in_grid_off_snake_witness :
    inGrid grid32x24 ({ centreGame with food := { x := 3, y := 2 } } : Game).food ∧
      ∀ segment ∈ centreGame.snake,
        segment ≠ ({ centreGame with food := { x := 3, y := 2 } } : Game).food :=
  GenerateFood_in_grid_off_snake grid32x24 centreGame
    { centreGame with food := { x := 3, y := 2 } } [16, 12, 3, 2] []
    (by decide) (by decide) (by decide)

/-! ## Game over and reset -/

theorem Reset_ok (grid : Grid) (g g1 : Game) (rand rest : List Nat)
    (h : g.Reset grid rand = Res.ok (g1, rest)) :
    g1.inMenu = true ∧ g1.snake = [centre grid] ∧ g1.direction = Move.none ∧ g1.score = 0 ∧
      g1.isRunning = g.isRunning ∧ g1.scoresTxt = g.scoresTxt ∧
      ∃ g0 : Game, g0.snake = [centre grid] ∧
        g0.GenerateFood grid rand = Res.ok ({ g0 with food := g1.food }, rest) := by
  unfold Game.Reset at h
  simp only at h
  split at h
  · exact absurd h (by simp)
  · rename_i g4 rest4 hgen
    simp only [Res.ok.injEq, Prod.mk.injEq] at h
    obtain ⟨rx, ry, hg4, -⟩ := GenerateFood_ok grid _ rand g4 rest4 hgen
    obtain ⟨h1, h2⟩ := h
    subst h1 h2 hg4
    exact ⟨rfl, rfl, rfl, rfl, rfl, rfl, _, rfl, hgen⟩

theorem GameOver_ok (grid : Grid) (appendOk : Bool) (g g1 : Game) (rand rest : List Nat)
    (h : g.GameOver grid appendOk rand = Res.ok (g1, rest)) :
    g1.inMenu = true ∧ g1.snake = [centre grid] ∧ g1.direction = Move.none ∧ g1.score = 0 ∧
      g1.isRunning = g.isRunning ∧
      g1.scoresTxt = (if appendOk = true then g.scoresTxt ++ [writeInt g.score]
                      else g.scoresTxt) ∧
      ∃ g0 : Game, g0.snake = [centre grid] ∧
        g0.GenerateFood grid rand = Res.ok ({ g0 with food := g1.food }, rest) := by
  unfold Game.GameOver at h
  simp only at h
  obtain ⟨h1, h2, h3, h4, h5, h6, h7⟩ := Reset_ok grid _ g1 rand rest h
  refine ⟨h1, h2, h3, h4, ?_, ?_, h7⟩
  · rw [h5]; cases appendOk <;> rfl
  · rw [h6]; cases appendOk <;> rfl

/-! ## One tick -/

theorem outside_iff_not_inGrid (grid : Grid) (head : Point) :
    (head.x < 0 ∨ head.x ≥ grid.GRID_WIDTH ∨ head.y < 0 ∨ head.y ≥ grid.GRID_HEIGHT) ↔
      ¬ inGrid grid head := by
  unfold inGrid
  omega

theorem food_test_iff (head food : Point) :
    (head.x = food.x ∧ head.y = food.y) ↔ head = food := by
  cases head; cases food; simp

theorem collision_test_iff (grid : Grid) (g : Game) (head : Point) :
    (head.x < 0 ∨ head.x ≥ grid.GRID_WIDTH ∨ head.y < 0 ∨ head.y ≥ grid.GRID_HEIGHT
        ∨ g.CheckCollision head.x head.y = true) ↔
      (¬ inGrid grid head ∨ head ∈ g.snake) := by
  rw [← CheckCollision_point, ← outside_iff_not_inGrid]
  tauto

/-- The tick of a playing state on a cell that is not the food cell: the tail segment goes,
then either the game is over or the moved head is inserted. -/
theorem Update_plain (grid : Grid) (appendOk : Bool) (g : Game) (rand : List Nat)
    (snake0 head : Point) (tail : List Point)
    (hplay : g.inMenu = false) (hsnake : g.snake = snake0 :: tail)
    (hdir : Game.movedHead snake0 g.direction = some head) (hfood : head ≠ g.food) :
    g.Update grid appendOk rand =
      if ¬ inGrid grid head ∨ head ∈ g.snake.dropLast then
        ({ g with snake := g.snake.dropLast } : Game).GameOver grid appendOk rand
      else Res.ok ({ g with snake := head :: g.snake.dropLast }, rand) := by
  have hf : ¬ (head.x = g.food.x ∧ head.y = g.food.y) := fun h =>
    hfood ((food_test_iff head g.food).mp h)
  obtain ⟨isRunning, inMenu, snake, food, direction, score, scoresTxt⟩ := g
  simp only at hplay hsnake hdir hf
  subst hplay hsnake
  unfold Game.Update
  simp only [Bool.false_eq_true, if_false, hdir, Game.foodCheck]
  rw [if_neg hf]
  exact if_congr (collision_test_iff grid _ head) rfl rfl

/-- The tick of a playing state on the food cell: the score grows by 10 and new food is
generated first, then either the game is over or the moved head is inserted before the
whole snake. -/
theorem Update_food (grid : Grid) (appendOk : Bool) (g : Game) (rand : List Nat)
    (snake0 head : Point) (tail : List Point)
    (hplay : g.inMenu = false) (hsnake : g.snake = snake0 :: tail)
    (hdir : Game.movedHead snake0 g.direction = some head) (hfood : head = g.food) :
    g.Update grid appendOk rand =
      match ({ g with score := wrapInt (g.score + 10) } : Game).GenerateFood grid rand with
      | Res.fault f => Res.fault f
      | Res.ok (g1, rand1) =>
        if ¬ inGrid grid head ∨ head ∈ g.snake then g1.GameOver grid appendOk rand1
        else Res.ok ({ g1 with snake := head :: g.snake }, rand1) := by
  have hf : head.x = g.food.x ∧ head.y = g.food.y := (food_test_iff head g.food).mpr hfood
  obtain ⟨isRunning, inMenu, snake, food, direction, score, scoresTxt⟩ := g
  simp only at hplay hsnake hdir hf
  subst hplay hsnake
  unfold Game.Update
  simp only [Bool.false_eq_true, if_false, hdir, Game.foodCheck]
  rw [if_pos hf]
  cases hgen : Game.GenerateFood grid
      { isRunning := isRunning, inMenu := false, snake := snake0 :: tail, food := food,
        direction := direction, score := wrapInt (score + 10), scoresTxt := scoresTxt } rand with
  | fault f => rfl
  | ok r =>
    obtain ⟨g1, rand1⟩ := r
    obtain ⟨rx, ry, hg1, -⟩ := GenerateFood_ok grid _ rand g1 rand1 hgen
    have hs : g1.snake = snake0 :: tail := by rw [hg1]
    simp only
    rw [← hs]
    exact if_congr (collision_test_iff grid g1 head) rfl rfl

/-! ## Input -/

theorem HandleMenuInput_ok (g g1 : Game) (option : MenuOption)
    (h : g.HandleMenuInput option = Res.ok g1) :
    g1.snake = g.snake ∧ g1.food = g.food ∧ g1.score = g.score ∧
      g1.scoresTxt = g.scoresTxt := by
  unfold Game.HandleMenuInput at h
  cases option with
  | start =>
    simp only [Res.ok.injEq] at h
    subst h
    exact ⟨rfl, rfl, rfl, rfl⟩
  | scores =>
    simp only at h
    split at h
    · exact absurd h (by simp)
    · simp only [Res.ok.injEq] at h
      subst h
      exact ⟨rfl, rfl, rfl, rfl⟩
  | exit => exact absurd h (by simp)

theorem handleEvent_ok (g g1 : Game) (event : Event) (h : g.handleEvent event = Res.ok g1) :
    g1.snake = g.snake ∧ g1.food = g.food ∧ g1.score = g.score ∧
      g1.scoresTxt = g.scoresTxt := by
  unfold Game.handleEvent at h
  cases event with
  | quit =>
    simp only [Res.ok.injEq] at h
    subst h
    exact ⟨rfl, rfl, rfl, rfl⟩
  | other =>
    simp only [Res.ok.injEq] at h
    subst h
    exact ⟨rfl, rfl, rfl, rfl⟩
  | keydown sym =>
    simp only at h
    split at h
    · cases sym <;> simp only [Res.ok.injEq] at h <;>
        first
          | exact HandleMenuInput_ok g g1 _ h
          | (subst h; exact ⟨rfl, rfl, rfl, rfl⟩)
    · cases sym <;> simp only [Res.ok.injEq] at h <;> subst h <;>
        first
          | exact ⟨rfl, rfl, rfl, rfl⟩
          | (split <;> exact ⟨rfl, rfl, rfl, rfl⟩)

theorem ProcessInput_ok (events : List Event) :
    ∀ (g g1 : Game), g.ProcessInput events = Res.ok g1 →
      g1.snake = g.snake ∧ g1.food = g.food ∧ g1.score = g.score ∧
        g1.scoresTxt = g.scoresTxt := by
  induction events with
  | nil =>
    intro g g1 h
    simp only [Game.ProcessInput, Res.ok.injEq] at h
    subst h
    exact ⟨rfl, rfl, rfl, rfl⟩
  | cons event events ih =>
    intro g g1 h
    simp only [Game.ProcessInput] at h
    split at h
    · exact absurd h (by simp)
    · rename_i g2 hev
      obtain ⟨a1, a2, a3, a4⟩ := handleEvent_ok g g2 event hev
      obtain ⟨b1, b2, b3, b4⟩ := ih g2 g1 h
      exact ⟨b1.trans a1, b2.trans a2, b3.trans a3, b4.trans a4⟩

/-- C3.  While playing, a direction key `k` asking for direction `d` leaves the session
as it was except for the direction, which becomes `d` when `d` is not the exact opposite
of the current direction and stays what it was when `d` is its exact opposite. -/
theorem ProcessInput_direction_key (g : Game) (k : Key) (d : Move)
    (hplay : g.inMenu = false) (hk : keyMove k = some d) :
    g.ProcessInput [Event.keydown k] =
      Res.ok { g with direction := if specOpposite d g.direction = true then g.direction
                                   else d } := by
  obtain ⟨isRunning, inMenu, snake, food, direction, score, scoresTxt⟩ := g
  simp only at hplay
  subst hplay
  cases k <;> simp only [keyMove, Option.some.injEq] at hk <;> try exact absurd hk (by simp)
  all_goals
    subst hk
    cases direction <;> rfl

theorem ProcessInput_direction_key_witness :
    runningGame.ProcessInput [Event.keydown Key.up] =
      Res.ok { runningGame with
        direction := if specOpposite Move.up runningGame.direction = true
                     then runningGame.direction else Move.up } :=
  ProcessInput_direction_key runningGame Key.up Move.up (by decide) (by decide)

/-- C4, as the code has it.  The menu option `start` returns, puts the game in playing
mode and writes nothing else: snake, food, score, direction and the score file are what
they were in the menu. -/
theorem HandleMenuInput_start_keeps_session (g : Game) :
    ∃ g1 : Game, g.HandleMenuInput MenuOption.start = Res.ok g1 ∧ g1.inMenu = false ∧
      g1.snake = g.snake ∧ g1.food = g.food ∧ g1.score = g.score ∧
      g1.direction = g.direction ∧ g1.scoresTxt = g.scoresTxt ∧
      g1.isRunning = g.isRunning :=
  ⟨{ g with inMenu := false }, rfl, rfl, rfl, rfl, rfl, rfl, rfl, rfl⟩

/-- C4 fails as stated.  A run in progress (two cells, heading right, score 10) is left
with Escape, which puts the game in the menu; the key `1` (option `start`) then gives
back the very same run: the snake is not the single centre cell, the score is not 0 and
the direction is not `Move.none`. -/
theorem start_after_escape_resumes :
    runningGame.inMenu = false ∧
    runningGame.ProcessInput [Event.keydown Key.escape] =
      Res.ok { runningGame with inMenu := true } ∧
    ({ runningGame with inMenu := true } : Game).HandleMenuInput MenuOption.start =
      Res.ok runningGame ∧
    ({ runningGame with inMenu := true } : Game).ProcessInput [Event.keydown Key.k1] =
      Res.ok runningGame ∧
    runningGame.snake ≠ [centre grid32x24] ∧ runningGame.score ≠ 0 ∧
    runningGame.direction ≠ Move.none := by
  decide

/-! ## What a tick that returns has done -/

/-- A tick of a playing state that returns has read a head cell; with no direction it
has changed nothing. -/
theorem Update_playing (grid : Grid) (appendOk : Bool) (g g1 : Game) (rand rest : List Nat)
    (hplay : g.inMenu = false) (hres : g.Update grid appendOk rand = Res.ok (g1, rest)) :
    ∃ (snake0 : Point) (tail : List Point), g.snake = snake0 :: tail ∧
      ((Game.movedHead snake0 g.direction = Option.none ∧ g1 = g ∧ rest = rand) ∨
        ∃ head : Point, Game.movedHead snake0 g.direction = some head) := by
  obtain ⟨isRunning, inMenu, snake, food, direction, score, scoresTxt⟩ := g
  simp only at hplay
  subst hplay
  unfold Game.Update at hres
  simp only [Bool.false_eq_true, if_false] at hres
  cases snake with
  | nil => exact absurd hres (by simp)
  | cons snake0 tail =>
    refine ⟨snake0, tail, rfl, ?_⟩
    simp only at hres
    cases hd : Game.movedHead snake0 direction with
    | none =>
      rw [hd] at hres
      simp only [Res.ok.injEq, Prod.mk.injEq] at hres
      exact Or.inl ⟨rfl, hres.1.symm, hres.2.symm⟩
    | some head => exact Or.inr ⟨head, rfl⟩

/-- A tick that does not end the game, on a cell that is not the food cell: the result
is the session with the moved head put before the snake without its last cell. -/
theorem Update_plain_continue (grid : Grid) (appendOk : Bool) (g g1 : Game)
    (rand rest : List Nat) (snake0 head : Point) (tail : List Point)
    (hplay : g.inMenu = false) (hsnake : g.snake = snake0 :: tail)
    (hdir : Game.movedHead snake0 g.direction = some head) (hfood : head ≠ g.food)
    (hres : g.Update grid appendOk rand = Res.ok (g1, rest)) (hcont : g1.inMenu = false) :
    g1 = { g with snake := head :: g.snake.dropLast } ∧ rest = rand ∧
      inGrid grid head ∧ head ∉ g.snake.dropLast := by
  rw [Update_plain grid appendOk g rand snake0 head tail hplay hsnake hdir hfood] at hres
  by_cases hc : ¬ inGrid grid head ∨ head ∈ g.snake.dropLast
  · rw [if_pos hc] at hres
    have hover := (GameOver_ok grid appendOk _ g1 rand rest hres).1
    rw [hcont] at hover
    exact absurd hover (by simp)
  · rw [if_neg hc] at hres
    simp only [Res.ok.injEq, Prod.mk.injEq] at hres
    refine ⟨hres.1.symm, hres.2.symm, ?_, ?_⟩
    · by_contra hn; exact hc (Or.inl hn)
    · intro hn; exact hc (Or.inr hn)

/-- A tick that does not end the game, on the food cell: `GenerateFood` has returned on
the session with the score raised by 10, and the moved head is put before the whole
snake. -/
theorem Update_food_continue (grid : Grid) (appendOk : Bool) (g g1 : Game)
    (rand rest : List Nat) (snake0 head : Point) (tail : List Point)
    (hplay : g.inMenu = false) (hsnake : g.snake = snake0 :: tail)
    (hdir : Game.movedHead snake0 g.direction = some head) (hfood : head = g.food)
    (hres : g.Update grid appendOk rand = Res.ok (g1, rest)) (hcont : g1.inMenu = false) :
    ∃ g2 : Game,
      ({ g with score := wrapInt (g.score + 10) } : Game).GenerateFood grid rand = Res.ok (g2, rest) ∧
      g1 = { g2 with snake := head :: g.snake } ∧ inGrid grid head ∧ head ∉ g.snake := by
  rw [Update_food grid appendOk g rand snake0 head tail hplay hsnake hdir hfood] at hres
  cases hgen : ({ g with score := wrapInt (g.score + 10) } : Game).GenerateFood grid rand with
  | fault f =>
    rw [hgen] at hres
    exact absurd hres (by simp)
  | ok r =>
    obtain ⟨g2, rand2⟩ := r
    rw [hgen] at hres
    simp only at hres
    by_cases hc : ¬ inGrid grid head ∨ head ∈ g.snake
    · rw [if_pos hc] at hres
      have hover := (GameOver_ok grid appendOk _ g1 rand2 rest hres).1
      rw [hcont] at hover
      exact absurd hover (by simp)
    · rw [if_neg hc] at hres
      simp only [Res.ok.injEq, Prod.mk.injEq] at hres
      refine ⟨g2, ?_, hres.1.symm, ?_, ?_⟩
      · rw [hres.2]
      · by_contra hn; exact hc (Or.inl hn)
      · intro hn; exact hc (Or.inr hn)

/-- A tick of a playing state that ends in the menu has gone through `GameOver`: on a
session with the score file untouched, and the score either as it was (moved head not on
the food cell) or raised by 10 in 32-bit arithmetic (moved head on the food cell). -/
theorem Update_ends_game (grid : Grid) (appendOk : Bool) (g g1 : Game) (rand rest : List Nat)
    (hplay : g.inMenu = false) (hres : g.Update grid appendOk rand = Res.ok (g1, rest))
    (hend : g1.inMenu = true) :
    ∃ (snake0 head : Point) (tail : List Point) (g2 : Game) (rand2 : List Nat),
      g.snake = snake0 :: tail ∧ Game.movedHead snake0 g.direction = some head ∧
      g2.GameOver grid appendOk rand2 = Res.ok (g1, rest) ∧
      g2.scoresTxt = g.scoresTxt ∧
      (head ≠ g.food → g2.score = g.score) ∧
      (head = g.food → g2.score = wrapInt (g.score + 10)) := by
  obtain ⟨snake0, tail, hsnake, hcase⟩ := Update_playing grid appendOk g g1 rand rest hplay hres
  rcases hcase with ⟨-, hg1, -⟩ | ⟨head, hdir⟩
  · rw [hg1, hplay] at hend
    exact absurd hend (by simp)
  · by_cases hfood : head = g.food
    · rw [Update_food grid appendOk g rand snake0 head tail hplay hsnake hdir hfood] at hres
      cases hgen : ({ g with score := wrapInt (g.score + 10) } : Game).GenerateFood grid rand with
      | fault f =>
        rw [hgen] at hres
        exact absurd hres (by simp)
      | ok r =>
        obtain ⟨g2, rand2⟩ := r
        rw [hgen] at hres
        simp only at hres
        obtain ⟨rx, ry, hg2, -⟩ := GenerateFood_ok grid _ rand g2 rand2 hgen
        by_cases hc : ¬ inGrid grid head ∨ head ∈ g.snake
        · rw [if_pos hc] at hres
          refine ⟨snake0, head, tail, g2, rand2, hsnake, hdir, hres, ?_, ?_, ?_⟩
          · rw [hg2]
          · intro hn; exact absurd hfood hn
          · intro _; rw [hg2]
        · rw [if_neg hc] at hres
          simp only [Res.ok.injEq, Prod.mk.injEq] at hres
          rw [← hres.1, hg2] at hend
          simp only [hplay] at hend
          exact absurd hend (by simp)
    · rw [Update_plain grid appendOk g rand snake0 head tail hplay hsnake hdir hfood] at hres
      by_cases hc : ¬ inGrid grid head ∨ head ∈ g.snake.dropLast
      · rw [if_pos hc] at hres
        exact ⟨snake0, head, tail, _, rand, hsnake, hdir, hres, rfl, fun _ => rfl,
          fun hn => absurd hn hfood⟩
      · rw [if_neg hc] at hres
        simp only [Res.ok.injEq, Prod.mk.injEq] at hres
        rw [← hres.1] at hend
        simp only [hplay] at hend
        exact absurd hend (by simp)

/-- A tick whose candidate head is a grid cell that the collision test does not find on
the snake does not end the game. -/
theorem Update_free_cell_continues (grid : Grid) (appendOk : Bool) (g g1 : Game)
    (rand rest : List Nat) (snake0 head : Point) (tail : List Point)
    (hplay : g.inMenu = false) (hsnake : g.snake = snake0 :: tail)
    (hdir : Game.movedHead snake0 g.direction = some head)
    (hres : g.Update grid appendOk rand = Res.ok (g1, rest))
    (hc : ¬ (¬ inGrid grid head ∨
      head ∈ (if head = g.food then g.snake else g.snake.dropLast))) :
    g1.inMenu = false := by
  by_cases hfood : head = g.food
  · rw [if_pos hfood] at hc
    rw [Update_food grid appendOk g rand snake0 head tail hplay hsnake hdir hfood] at hres
    split at hres
    · exact absurd hres (by simp)
    · rename_i g2 rand2 hgen
      obtain ⟨rx, ry, hg2, -⟩ := GenerateFood_ok grid _ rand g2 rand2 hgen
      rw [if_neg hc] at hres
      simp only [Res.ok.injEq, Prod.mk.injEq] at hres
      rw [← hres.1, hg2]
      exact hplay
  · rw [if_neg hfood] at hc
    rw [Update_plain grid appendOk g rand snake0 head tail hplay hsnake hdir hfood,
      if_neg hc] at hres
    simp only [Res.ok.injEq, Prod.mk.injEq] at hres
    rw [← hres.1]
    exact hplay

/-- A tick that does not end the game has moved the head to a grid cell that the
collision test has not found on the snake. -/
theorem Update_continues_free_cell (grid : Grid) (appendOk : Bool) (g g1 : Game)
    (rand rest : List Nat) (snake0 head : Point) (tail : List Point)
    (hplay : g.inMenu = false) (hsnake : g.snake = snake0 :: tail)
    (hdir : Game.movedHead snake0 g.direction = some head)
    (hres : g.Update grid appendOk rand = Res.ok (g1, rest)) (hcont : g1.inMenu = false) :
    inGrid grid head ∧ head ∉ (if head = g.food then g.snake else g.snake.dropLast) := by
  by_cases hfood : head = g.food
  · rw [if_pos hfood]
    obtain ⟨g2, -, -, hin, hnot⟩ := Update_food_continue grid appendOk g g1 rand rest
      snake0 head tail hplay hsnake hdir hfood hres hcont
    exact ⟨hin, hnot⟩
  · rw [if_neg hfood]
    obtain ⟨-, -, hin, hnot⟩ := Update_plain_continue grid appendOk g g1 rand rest
      snake0 head tail hplay hsnake hdir hfood hres hcont
    exact ⟨hin, hnot⟩

/-! ## Writing a score and reading it back -/

theorem digitChar_facts : ∀ m, m < 10 →
    (Nat.digitChar m).isDigit = true ∧ (Nat.digitChar m).toNat - 48 = m := by
  decide

theorem isDigit_facts (c : Char) (h : c.isDigit = true) :
    isspace c = false ∧ c ≠ '-' ∧ c ≠ '+' := by
  refine ⟨?_, ?_, ?_⟩
  · have h1 : 48 ≤ c.toNat := by
      simp only [Char.isDigit, Bool.and_eq_true, decide_eq_true_eq] at h
      exact h.1
    unfold isspace
    simp only [Bool.or_eq_false_iff, decide_eq_false_iff_not, Bool.and_eq_false_imp,
      decide_eq_true_eq]
    omega
  · rintro rfl
    exact absurd h (by decide)
  · rintro rfl
    exact absurd h (by decide)

theorem toDigitsCore_decimal (fuel : Nat) :
    ∀ (n : Nat) (ds : List Char), n < fuel →
      ∃ front : List Char, Nat.toDigitsCore 10 fuel n ds = front ++ ds ∧ IsDecimal front n := by
  induction fuel with
  | zero => intro n ds h; omega
  | succ fuel ih =>
    intro n ds h
    have hd := digitChar_facts (n % 10) (Nat.mod_lt n (by decide))
    unfold Nat.toDigitsCore
    simp only
    by_cases h0 : n / 10 = 0
    · rw [if_pos h0]
      refine ⟨[Nat.digitChar (n % 10)], rfl, by simp, ?_, ?_⟩
      · intro c hc
        rw [List.mem_singleton] at hc
        rw [hc]
        exact hd.1
      · intro acc
        simp only [List.foldl_cons, List.foldl_nil, List.length_singleton, pow_one, hd.2]
        omega
    · rw [if_neg h0]
      obtain ⟨front, hfront, hne, hdig, hval⟩ :=
        ih (n / 10) (Nat.digitChar (n % 10) :: ds) (by omega)
      refine ⟨front ++ [Nat.digitChar (n % 10)], ?_, by simp, ?_, ?_⟩
      · rw [hfront]; simp
      · intro c hc
        rw [List.mem_append, List.mem_singleton] at hc
        rcases hc with hc | hc
        · exact hdig c hc
        · rw [hc]; exact hd.1
      · intro acc
        rw [List.foldl_append, hval acc]
        simp only [List.foldl_cons, List.foldl_nil, List.length_append, List.length_singleton,
          hd.2, pow_succ]
        have := Nat.div_add_mod n 10
        nlinarith [this]

theorem toDigits_decimal (n : Nat) : IsDecimal (Nat.toDigits 10 n) n := by
  obtain ⟨front, hfront, hdec⟩ := toDigitsCore_decimal (n + 1) n [] (by omega)
  unfold Nat.toDigits
  rw [hfront, List.append_nil]
  exact hdec

theorem takeWhile_all {α : Type} (p : α → Bool) (l : List α) (h : ∀ a ∈ l, p a = true) :
    l.takeWhile p = l := by
  induction l with
  | nil => rfl
  | cons a l ih =>
    rw [List.takeWhile_cons, h a (List.mem_cons_self a l),
      ih (fun b hb => h b (List.mem_cons_of_mem a hb))]
    rfl

theorem stoiSign_digit (c : Char) (cs : List Char) (hminus : c ≠ '-') (hplus : c ≠ '+') :
    stoiSign (c :: cs) = (false, c :: cs) := by
  unfold stoiSign
  split
  · rename_i t heq
    exact absurd (List.cons.inj heq).1 hminus
  · rename_i t heq
    exact absurd (List.cons.inj heq).1 hplus
  · rfl

/-- Reading a decimal numeral with `std::stoi`. -/
theorem stoi_decimal (ds : List Char) (n : Nat) (h : IsDecimal ds n)
    (hmax : (n : Int) ≤ INT_MAX) : stoi ds = some (n : Int) := by
  obtain ⟨hne, hdig, hval⟩ := h
  cases ds with
  | nil => exact absurd rfl hne
  | cons c cs =>
    obtain ⟨hsp, hminus, hplus⟩ := isDigit_facts c (hdig c (List.mem_cons_self c cs))
    have hv : digitsValue (c :: cs) = n := by
      have := hval 0
      simpa [digitsValue] using this
    unfold stoi
    simp only [List.dropWhile_cons, hsp, Bool.false_eq_true, if_false,
      stoiSign_digit c cs hminus hplus, takeWhile_all Char.isDigit (c :: cs) hdig, hv]
    rw [if_neg (by simp), if_pos]
    refine ⟨?_, hmax⟩
    unfold INT_MIN
    omega

/-- Reading a decimal numeral behind a minus sign with `std::stoi`. -/
theorem stoi_minus_decimal (ds : List Char) (n : Nat) (h : IsDecimal ds n)
    (hmin : INT_MIN ≤ -(n : Int)) : stoi ('-' :: ds) = some (-(n : Int)) := by
  obtain ⟨hne, hdig, hval⟩ := h
  have hv : digitsValue ds = n := by
    have := hval 0
    simpa [digitsValue] using this
  have hsp : isspace '-' = false := by decide
  have hsign : stoiSign ('-' :: ds) = (true, ds) := rfl
  unfold stoi
  simp only [List.dropWhile_cons, hsp, Bool.false_eq_true, if_false, hsign,
    takeWhile_all Char.isDigit ds hdig, hv, if_true]
  rw [if_neg hne, if_pos]
  refine ⟨hmin, ?_⟩
  unfold INT_MAX
  omega

/-- What `operator<<` writes for an `int`, `std::stoi` reads back. -/
theorem stoi_writeInt (z : Int) (hmin : INT_MIN ≤ z) (hmax : z ≤ INT_MAX) :
    stoi (writeInt z) = some z := by
  cases z with
  | ofNat n => exact stoi_decimal _ n (toDigits_decimal n) hmax
  | negSucc n =>
    have h := stoi_minus_decimal _ (n + 1) (toDigits_decimal (n + 1))
      (by rw [Int.negSucc_eq] at hmin; exact_mod_cast hmin)
    rw [Int.negSucc_eq]
    exact_mod_cast h

/-! ## The claims about one tick -/

/-- C1 fails as stated.  The snake is coiled in the corner, the cell below its head
`(0, 0)` is its tail `(0, 1)`, and it heads down: the candidate head equals a cell of the
snake at the start of the tick, and yet the tick does not end the game, because the tail
is removed before the collision test. -/
theorem Update_onto_tail_survives :
    coiledGame.inMenu = false ∧
    coiledGame.snake = { x := 0, y := 0 } ::
      [{ x := 1, y := 0 }, { x := 1, y := 1 }, { x := 0, y := 1 }] ∧
    Game.movedHead { x := 0, y := 0 } coiledGame.direction = some { x := 0, y := 1 } ∧
    ({ x := 0, y := 1 } : Point) ∈ coiledGame.snake ∧
    coiledGame.Update grid32x24 true [] =
      Res.ok (({ coiledGame with
        snake := [{ x := 0, y := 1 }, { x := 0, y := 0 }, { x := 1, y := 0 },
                  { x := 1, y := 1 }] } : Game), ([] : List Nat)) ∧
    ¬ (({ coiledGame with
        snake := [{ x := 0, y := 1 }, { x := 0, y := 0 }, { x := 1, y := 0 },
                  { x := 1, y := 1 }] } : Game).inMenu = true ↔
      (¬ inGrid grid32x24 { x := 0, y := 1 } ∨
        ({ x := 0, y := 1 } : Point) ∈ coiledGame.snake)) := by
  decide

/-- C1, as the code has it.  For a playing state with a non-empty snake and a direction,
a tick that returns ends the game if and only if the candidate head lies outside the grid
or equals a cell of the snake as the collision test finds it: the whole snake of the
start of the tick when the candidate head is the food cell, that snake without its last
cell (the tail, already removed) when it is not. -/
theorem Update_ends_game_iff (grid : Grid) (appendOk : Bool) (g g1 : Game)
    (rand rest : List Nat) (snake0 head : Point) (tail : List Point)
    (hplay : g.inMenu = false) (hsnake : g.snake = snake0 :: tail)
    (hdir : Game.movedHead snake0 g.direction = some head)
    (hres : g.Update grid appendOk rand = Res.ok (g1, rest)) :
    g1.inMenu = true ↔
      (¬ inGrid grid head ∨
        head ∈ (if head = g.food then g.snake else g.snake.dropLast)) := by
  constructor
  · intro hend
    by_contra hc
    have hcont := Update_free_cell_continues grid appendOk g g1 rand rest snake0 head tail
      hplay hsnake hdir hres hc
    rw [hcont] at hend
    exact absurd hend (by simp)
  · intro hc
    by_contra hend
    have hcont : g1.inMenu = false := by simpa using hend
    have hfree := Update_continues_free_cell grid appendOk g g1 rand rest snake0 head tail
      hplay hsnake hdir hres hcont
    rcases hc with hc | hc
    · exact hc hfree.1
    · exact hfree.2 hc

theorem Update_ends_game_iff_witness :
    wallGameOver.inMenu = true ↔
      (¬ inGrid grid32x24 { x := -1, y := 3 } ∨
        ({ x := -1, y := 3 } : Point) ∈
          (if ({ x := -1, y := 3 } : Point) = wallGame.food then wallGame.snake
           else wallGame.snake.dropLast)) :=
  Update_ends_game_iff grid32x24 true wallGame wallGameOver [3, 4] [] { x := 0, y := 3 }
    { x := -1, y := 3 } [{ x := 1, y := 3 }] (by decide) (by decide) (by decide) (by decide)

/-- C5.  On a grid with `GRID_WIDTH ≥ 1` and `GRID_HEIGHT ≥ 1`, a tick of a playing state
that returns and ends the game leaves the game in the menu, the snake the single centre
cell, no direction, score 0, and the food on a grid cell other than the centre cell. -/
theorem Update_game_over_resets (grid : Grid) (appendOk : Bool) (g g1 : Game)
    (rand rest : List Nat) (hW : 1 ≤ grid.GRID_WIDTH) (hH : 1 ≤ grid.GRID_HEIGHT)
    (hplay : g.inMenu = false) (hres : g.Update grid appendOk rand = Res.ok (g1, rest))
    (hend : g1.inMenu = true) :
    g1.inMenu = true ∧ g1.snake = [centre grid] ∧ g1.direction = Move.none ∧ g1.score = 0 ∧
      inGrid grid g1.food ∧ g1.food ≠ centre grid := by
  obtain ⟨snake0, head, tail, g2, rand2, -, -, hover, -, -, -⟩ :=
    Update_ends_game grid appendOk g g1 rand rest hplay hres hend
  obtain ⟨h1, h2, h3, h4, -, -, g0, hg0, hgen⟩ := GameOver_ok grid appendOk g2 g1 rand2 rest hover
  obtain ⟨rx, ry, hg, hfree⟩ := GenerateFood_ok grid g0 rand2 _ rest hgen
  have hfood : g1.food = { x := Int.tmod (rx : Int) grid.GRID_WIDTH,
                           y := Int.tmod (ry : Int) grid.GRID_HEIGHT } := by
    have := congrArg Game.food hg
    exact this
  refine ⟨h1, h2, h3, h4, ?_, ?_⟩
  · rw [hfood]
    exact drawn_cell_inGrid grid rx ry hW hH
  · intro heq
    refine not_mem_of_CheckCollision_false g0 _ _ hfree (centre grid) ?_ ?_
    · rw [hg0]; exact List.mem_singleton_self _
    · rw [← heq, hfood]

theorem Update_game_over_resets_witness :
    wallGameOver.inMenu = true ∧
      wallGameOver.snake = [centre grid32x24] ∧
      wallGameOver.direction = Move.none ∧
      wallGameOver.score = 0 ∧
      inGrid grid32x24 wallGameOver.food ∧
      wallGameOver.food ≠ centre grid32x24 :=
  Update_game_over_resets grid32x24 true wallGame wallGameOver [3, 4] [] (by decide) (by decide)
    (by decide) (by decide) (by decide)

/-- The session `foodUnderTailGame` is reached from the initial session: the snake eats at
`(17, 12)`, `(18, 12)` and `(19, 12)`, the third food is regenerated on the cell just
eaten, and the snake turns down, right, up and left around it. -/
theorem foodUnderTailGame_reachable : Reachable grid32x24 foodUnderTailGame := by
  have r0 : Reachable grid32x24
      { isRunning := true, inMenu := true, snake := [{ x := 16, y := 12 }],
        food := { x := 17, y := 12 }, direction := Move.none, score := 0,
        scoresTxt := [] } :=
    Reachable.init { x := 0, y := 0 } Move.none [] [17, 12] [] _ (by decide)
  have r1 : Reachable grid32x24
      (session [{ x := 16, y := 12 }] { x := 17, y := 12 } Move.right 0) :=
    Reachable.input _ _ [Event.keydown Key.k1, Event.keydown Key.right] r0 (by decide)
  have r2 : Reachable grid32x24
      (session [{ x := 17, y := 12 }, { x := 16, y := 12 }] { x := 18, y := 12 }
        Move.right 10) :=
    Reachable.tick _ _ true [18, 12] [] r1 (by decide)
  have r3 : Reachable grid32x24
      (session [{ x := 18, y := 12 }, { x := 17, y := 12 }, { x := 16, y := 12 }]
        { x := 19, y := 12 } Move.right 20) :=
    Reachable.tick _ _ true [19, 12] [] r2 (by decide)
  have r4 : Reachable grid32x24
      (session [{ x := 19, y := 12 }, { x := 18, y := 12 }, { x := 17, y := 12 },
        { x := 16, y := 12 }] { x := 19, y := 12 } Move.right 30) :=
    Reachable.tick _ _ true [19, 12] [] r3 (by decide)
  have r5 : Reachable grid32x24
      (session [{ x := 19, y := 13 }, { x := 19, y := 12 }, { x := 18, y := 12 },
        { x := 17, y := 12 }] { x := 19, y := 12 } Move.down 30) :=
    Reachable.tick _ _ true [] []
      (Reachable.input _
        (session [{ x := 19, y := 12 }, { x := 18, y := 12 }, { x := 17, y := 12 },
          { x := 16, y := 12 }] { x := 19, y := 12 } Move.down 30)
        [Event.keydown Key.down] r4 (by decide))
      (by decide)
  have r6 : Reachable grid32x24
      (session [{ x := 20, y := 13 }, { x := 19, y := 13 }, { x := 19, y := 12 },
        { x := 18, y := 12 }] { x := 19, y := 12 } Move.right 30) :=
    Reachable.tick _ _ true [] []
      (Reachable.input _
        (session [{ x := 19, y := 13 }, { x := 19, y := 12 }, { x := 18, y := 12 },
          { x := 17, y := 12 }] { x := 19, y := 12 } Move.right 30)
        [Event.keydown Key.right] r5 (by decide))
      (by decide)
  have r7 : Reachable grid32x24
      (session [{ x := 20, y := 12 }, { x := 20, y := 13 }, { x := 19, y := 13 },
        { x := 19, y := 12 }] { x := 19, y := 12 } Move.up 30) :=
    Reachable.tick _ _ true [] []
      (Reachable.input _
        (session [{ x := 20, y := 13 }, { x := 19, y := 13 }, { x := 19, y := 12 },
          { x := 18, y := 12 }] { x := 19, y := 12 } Move.up 30)
        [Event.keydown Key.up] r6 (by decide))
      (by decide)
  exact Reachable.input _ _ [Event.keydown Key.left] r7 (by decide)

/-- C6 fails as stated.  In a session reached from the initial one, the food cell lies
under the tail `(19, 12)`, the cell to the left of the head, and the snake heads left with
score 30.  The food test comes first: the score becomes 40 and new food is generated; the
tail is not removed, so the collision test that follows ends the game, and the record
written reads 40, not 30. -/
theorem Update_collision_after_eating_records_raised_score :
    Reachable grid32x24 foodUnderTailGame ∧
    foodUnderTailGame.inMenu = false ∧
    foodUnderTailGame.score = 30 ∧
    foodUnderTailGame.Update grid32x24 true [0, 0, 1, 1] =
      Res.ok (foodUnderTailGameOver, ([] : List Nat)) ∧
    foodUnderTailGameOver.inMenu = true ∧
    foodUnderTailGameOver.scoresTxt = foodUnderTailGame.scoresTxt ++ [['4', '0']] ∧
    stoi ['4', '0'] = some 40 ∧
    stoi ['4', '0'] ≠ some foodUnderTailGame.score :=
  ⟨foodUnderTailGame_reachable, by decide, by decide, by decide, by decide, by decide,
    by decide, by decide⟩

/-- C6, as the code has it.  When `scores.txt` opens for appending, a tick of a playing
state that returns and ends the game appends exactly one record to the end of the file
and leaves the earlier records as they were.  When the candidate head is not the food
cell, the record read back with `std::stoi` is the score at the start of the tick.  And
when the food cell is a grid cell that is not on the snake, the candidate head of such a
tick is not the food cell. -/
theorem Update_game_over_appends_score (grid : Grid) (g g1 : Game) (rand rest : List Nat)
    (snake0 head : Point) (tail : List Point)
    (hplay : g.inMenu = false) (hsnake : g.snake = snake0 :: tail)
    (hdir : Game.movedHead snake0 g.direction = some head)
    (hres : g.Update grid true rand = Res.ok (g1, rest)) (hend : g1.inMenu = true)
    (hmin : INT_MIN ≤ g.score) (hmax : g.score ≤ INT_MAX) :
    ∃ record : List Char, g1.scoresTxt = g.scoresTxt ++ [record] ∧
      (head ≠ g.food → stoi record = some g.score) ∧
      (inGrid grid g.food → g.food ∉ g.snake → head ≠ g.food) := by
  obtain ⟨snake1, head1, tail1, g2, rand2, hsnake1, hdir1, hover, htxt, hkeep, -⟩ :=
    Update_ends_game grid true g g1 rand rest hplay hres hend
  have hs : snake1 = snake0 := by
    have := hsnake1.symm.trans hsnake
    exact (List.cons.inj this).1
  subst hs
  have hh : head1 = head := by
    rw [hdir] at hdir1
    exact (Option.some.inj hdir1).symm
  subst hh
  obtain ⟨-, -, -, -, -, hfile, -⟩ := GameOver_ok grid true g2 g1 rand2 rest hover
  rw [if_pos rfl, htxt] at hfile
  refine ⟨writeInt g2.score, hfile, ?_, ?_⟩
  · intro hfood
    rw [hkeep hfood]
    exact stoi_writeInt g.score hmin hmax
  · intro hin hoff hfood
    have hcont := Update_free_cell_continues grid true g g1 rand rest snake1 head1 tail hplay
      hsnake hdir hres (by
        rw [if_pos hfood]
        rintro (hc | hc)
        · exact hc (hfood ▸ hin)
        · exact hoff (hfood ▸ hc))
    rw [hcont] at hend
    exact absurd hend (by simp)

theorem Update_game_over_appends_score_witness :
    ∃ record : List Char, wallGameOver.scoresTxt = wallGame.scoresTxt ++ [record] ∧
      (({ x := -1, y := 3 } : Point) ≠ wallGame.food → stoi record = some wallGame.score) ∧
      (inGrid grid32x24 wallGame.food → wallGame.food ∉ wallGame.snake →
        ({ x := -1, y := 3 } : Point) ≠ wallGame.food) :=
  Update_game_over_appends_score grid32x24 wallGame wallGameOver [3, 4] []
    { x := 0, y := 3 } { x := -1, y := 3 } [{ x := 1, y := 3 }]
    (by decide) (by decide) (by decide) (by decide) (by decide) (by decide) (by decide)

/-- C9: the code at the failing input.  The snake `[(5, 5)]` heads right onto the food
cell `(6, 5)` and the two values drawn are 6 and 5.  `GenerateFood` runs before the head
is inserted and tests the old snake only, so it accepts `(6, 5)`: after the tick the food
lies on the new head, on the very cell just eaten. -/
theorem Update_places_food_under_new_head :
    feedingGame.inMenu = false ∧
    feedingGame.Update grid32x24 true [6, 5] = Res.ok (fedOnHeadGame, ([] : List Nat)) ∧
    fedOnHeadGame.inMenu = false ∧
    fedOnHeadGame.score = feedingGame.score + 10 ∧
    fedOnHeadGame.food ∈ fedOnHeadGame.snake ∧
    fedOnHeadGame.food = feedingGame.food := by
  decide

/-- C10: the code at the failing input.  The snake heads left; the keys Up and Right are
polled in one call of `ProcessInput`.  Each key is tested against the direction the key
before it has just set, so the direction after the call is right, the exact opposite of
the direction before it; the next tick moves the head onto the second cell `(6, 5)` and
the game is over. -/
theorem ProcessInput_two_keys_reverse :
    leftwardGame.inMenu = false ∧
    leftwardGame.ProcessInput [Event.keydown Key.up, Event.keydown Key.right] =
      Res.ok leftwardGameTurned ∧
    specOpposite leftwardGameTurned.direction leftwardGame.direction = true ∧
    Game.movedHead { x := 5, y := 5 } leftwardGameTurned.direction =
      some { x := 6, y := 5 } ∧
    leftwardGameTurned.snake =
      [{ x := 5, y := 5 }, { x := 6, y := 5 }, { x := 7, y := 5 }] ∧
    leftwardGameTurned.Update grid32x24 true [3, 4] =
      Res.ok (leftwardGameOver, ([] : List Nat)) ∧
    leftwardGameOver.inMenu = true := by
  decide

/-! ## The snake of a reachable session -/

theorem centre_inGrid (grid : Grid) (hW : 1 ≤ grid.GRID_WIDTH) (hH : 1 ≤ grid.GRID_HEIGHT) :
    inGrid grid (centre grid) := by
  unfold inGrid centre
  simp only
  rw [Int.tdiv_eq_ediv (by omega) (by omega), Int.tdiv_eq_ediv (by omega) (by omega)]
  omega

theorem SnakeOk_centre (grid : Grid) (hW : 1 ≤ grid.GRID_WIDTH)
    (hH : 1 ≤ grid.GRID_HEIGHT) : SnakeOk grid [centre grid] := by
  refine ⟨by simp, List.nodup_singleton _, ?_⟩
  intro p hp
  rw [List.mem_singleton] at hp
  rw [hp]
  exact centre_inGrid grid hW hH

theorem SnakeOk_cons (grid : Grid) (head : Point) (snake : List Point)
    (hin : inGrid grid head) (hnot : head ∉ snake) (hnodup : snake.Nodup)
    (hall : ∀ p ∈ snake, inGrid grid p) : SnakeOk grid (head :: snake) := by
  refine ⟨by simp, List.nodup_cons.mpr ⟨hnot, hnodup⟩, ?_⟩
  intro p hp
  rcases List.mem_cons.mp hp with h | h
  · rw [h]; exact hin
  · exact hall p h

theorem Initialize_snake (grid : Grid) (food : Point) (direction : Move)
    (scoresTxt : List (List Char)) (rand rest : List Nat) (g : Game)
    (h : (Game.ctor food direction scoresTxt).Initialize allAcquired grid rand =
      Res.ok (g, rest)) :
    g.snake = [centre grid] := by
  unfold Game.Initialize allAcquired Game.ctor at h
  simp only [Bool.true_eq_false, if_false, List.nil_append] at h
  split at h
  · exact absurd h (by simp)
  · rename_i g4 rest4 hgen
    obtain ⟨rx, ry, hg4, -⟩ := GenerateFood_ok grid _ rand g4 rest4 hgen
    simp only [Res.ok.injEq, Prod.mk.injEq] at h
    rw [← h.1, hg4]
    rfl

theorem Update_SnakeOk (grid : Grid) (appendOk : Bool) (g g1 : Game) (rand rest : List Nat)
    (hW : 1 ≤ grid.GRID_WIDTH) (hH : 1 ≤ grid.GRID_HEIGHT)
    (hok : SnakeOk grid g.snake) (hres : g.Update grid appendOk rand = Res.ok (g1, rest)) :
    SnakeOk grid g1.snake := by
  by_cases hmenu : g.inMenu = true
  · unfold Game.Update at hres
    rw [if_pos hmenu] at hres
    simp only [Res.ok.injEq, Prod.mk.injEq] at hres
    rw [← hres.1]
    exact hok
  · have hplay : g.inMenu = false := by simpa using hmenu
    obtain ⟨snake0, tail, hsnake, hcase⟩ :=
      Update_playing grid appendOk g g1 rand rest hplay hres
    rcases hcase with ⟨-, hg1, -⟩ | ⟨head, hdir⟩
    · rw [hg1]; exact hok
    · by_cases hend : g1.inMenu = true
      · obtain ⟨_, _, _, g2, rand2, -, -, hover, -, -, -⟩ :=
          Update_ends_game grid appendOk g g1 rand rest hplay hres hend
        rw [(GameOver_ok grid appendOk g2 g1 rand2 rest hover).2.1]
        exact SnakeOk_centre grid hW hH
      · have hcont : g1.inMenu = false := by simpa using hend
        obtain ⟨-, hnodup, hall⟩ := hok
        by_cases hfood : head = g.food
        · obtain ⟨g2, -, hg1, hin, hnot⟩ := Update_food_continue grid appendOk g g1 rand rest
            snake0 head tail hplay hsnake hdir hfood hres hcont
          rw [hg1]
          exact SnakeOk_cons grid head g.snake hin hnot hnodup hall
        · obtain ⟨hg1, -, hin, hnot⟩ := Update_plain_continue grid appendOk g g1 rand rest
            snake0 head tail hplay hsnake hdir hfood hres hcont
          rw [hg1]
          exact SnakeOk_cons grid head g.snake.dropLast hin hnot
            ((List.dropLast_sublist g.snake).nodup hnodup)
            (fun p hp => hall p (List.dropLast_subset g.snake hp))

/-- C8.  On a grid with `GRID_WIDTH ≥ 1` and `GRID_HEIGHT ≥ 1`, in every session reached
from the initial one by key events, menu selections and ticks, the snake is not empty,
holds no cell twice, and lies inside `[0, GRID_WIDTH) x [0, GRID_HEIGHT)`. -/
theorem Reachable_snake_ok (grid : Grid) (hW : 1 ≤ grid.GRID_WIDTH)
    (hH : 1 ≤ grid.GRID_HEIGHT) (g : Game) (hreach : Reachable grid g) :
    g.snake ≠ [] ∧ g.snake.Nodup ∧ ∀ p ∈ g.snake, inGrid grid p := by
  induction hreach with
  | init food direction scoresTxt rand rest g hinit =>
    rw [Initialize_snake grid food direction scoresTxt rand rest g hinit]
    exact SnakeOk_centre grid hW hH
  | input g g1 events _ hin ih =>
    rw [(ProcessInput_ok events g g1 hin).1]
    exact ih
  | menu g g1 option _ hmenu ih =>
    rw [(HandleMenuInput_ok g g1 option hmenu).1]
    exact ih
  | tick g g1 appendOk rand rest _ hres ih =>
    exact Update_SnakeOk grid appendOk g g1 rand rest hW hH ih hres

theorem Reachable_snake_ok_witness :
    initialGameMoved.snake ≠ [] ∧ initialGameMoved.snake.Nodup ∧
      ∀ p ∈ initialGameMoved.snake, inGrid grid32x24 p :=
  Reachable_snake_ok grid32x24 (by decide) (by decide) initialGameMoved
    (Reachable.tick initialGameStarted initialGameMoved true [] []
      (Reachable.input initialGame initialGameStarted
        [Event.keydown Key.k1, Event.keydown Key.right]
        (Reachable.init { x := 0, y := 0 } Move.up [['7']] [16, 12, 3, 4] [] initialGame
          (by decide))
        (by decide))
      (by decide))
